import Mathlib

/-!
# Verification of the graph-editor and API-helper logic

A shallow embedding of the connection/edge logic of
`src/components/graph/graph.tsx` and of the request helpers of the API
configuration module, with theorems settling the stated properties.

Strings model JavaScript strings; handle identifiers coming over the wire may
be `null`, modelled as `Option String`.  JavaScript truthiness of an optional
string (absent, `null` or `""` are falsy) is modelled by `strTruthy`.
-/

/-- JavaScript truthiness of a `string | null | undefined` value: falsy means
absent or the empty string. -/
def strTruthy : Option String → Bool
  | none => false
  | some s => s != ""

/-- Modelled from the spec: `agentNodeSourceHandleId`, a fixed handle id
exported by the node-types configuration module (that module is not among the
source files).  Only the constant's identity matters to the theorems below. -/
def agentNodeSourceHandleId : String := "agent-source-handle"

/-- Modelled from the spec: `agentNodeTargetHandleId` from the node-types
configuration module. -/
def agentNodeTargetHandleId : String := "agent-target-handle"

/-- Modelled from the spec: `externalAgentNodeTargetHandleId`, the
external-agent handle, from the node-types configuration module. -/
def externalAgentNodeTargetHandleId : String := "external-agent-target-handle"

/-- Modelled from the spec: `mcpNodeHandleId`, the MCP-node handle, from the
node-types configuration module. -/
def mcpNodeHandleId : String := "mcp-node-handle"

/-- The four directional relationship flags carried in an edge's `data`
payload (`graph.tsx`, the `relationships` objects built in
`onConnectWrapped`). -/
structure Relationships where
  transferTargetToSource : Bool
  transferSourceToTarget : Bool
  delegateTargetToSource : Bool
  delegateSourceToTarget : Bool
deriving DecidableEq, Repr

/-- The edge types the canvas distinguishes (`EdgeType` from the edge-types
configuration; `Default` stands for the canvas's `defaultEdgeOptions`
type `'default'`, used when `onConnectWrapped` sets no explicit type). -/
inductive EdgeType where
  | SelfLoop
  | A2A
  | A2AExternal
  | Default
deriving DecidableEq, Repr

/-- A connection gesture as delivered to `onConnectWrapped`: endpoint node ids
plus the (possibly null) handle ids. -/
structure Connection where
  source : String
  target : String
  sourceHandle : Option String
  targetHandle : Option String
deriving DecidableEq, Repr

/-- The part of the created edge the inference logic determines: its id, type,
selection flag and `relationships` payload (`none` when `onConnectWrapped`
attaches no `data`). -/
structure GraphEdge where
  id : String
  type : EdgeType
  selected : Bool
  relationships : Option Relationships
deriving DecidableEq, Repr

/-- `getEdgeId` from `graph.tsx`: the two endpoint ids are sorted
(JavaScript's default lexicographic sort on the two-element array) and joined
with `-` after the prefix `edge-`. -/
def getEdgeId (a b : String) : String :=
  let low := if a ≤ b then a else b
  let high := if a ≤ b then b else a
  "edge-" ++ low ++ "-" ++ high

/-- The self-loop edge id built inline in `onConnectWrapped`:
`` `edge-self-${params.source}` ``. -/
def selfLoopEdgeId (source : String) : String := "edge-self-" ++ source

/-- The edge built by `onConnectWrapped` (`graph.tsx`): self-loop check
first, then the agent-to-agent branch, then the agent-to-external-agent
branch, otherwise the default edge with no `data` payload. -/
def onConnectEdge (params : Connection) : GraphEdge :=
  let isSelfLoop := params.source == params.target
  let id := if isSelfLoop then selfLoopEdgeId params.source
            else getEdgeId params.source params.target
  let sourceHandle := params.sourceHandle
  let targetHandle := params.targetHandle
  if isSelfLoop then
    { id := id, type := EdgeType.SelfLoop, selected := true,
      relationships := some ⟨false, true, false, false⟩ }
  else if (sourceHandle == some agentNodeSourceHandleId
        || sourceHandle == some agentNodeTargetHandleId)
      && (targetHandle == some agentNodeTargetHandleId
        || targetHandle == some agentNodeSourceHandleId) then
    { id := id, type := EdgeType.A2A, selected := true,
      relationships := some ⟨false, true, false, false⟩ }
  else if (sourceHandle == some agentNodeSourceHandleId
        || sourceHandle == some agentNodeTargetHandleId)
      && targetHandle == some externalAgentNodeTargetHandleId then
    { id := id, type := EdgeType.A2AExternal, selected := false,
      relationships := some ⟨false, false, false, true⟩ }
  else
    { id := id, type := EdgeType.Default, selected := false,
      relationships := none }

/-- A handle is an agent-control handle when it is the agent node's source or
target handle. -/
def isAgentControlHandle (h : Option String) : Bool :=
  h == some agentNodeSourceHandleId || h == some agentNodeTargetHandleId

/-- The connection-inference rule as the spec words it: a pure function of
`(isSelfLoop, sourceHandle, targetHandle)` returning the edge type and the
default relationship flags. -/
def specConnectionInference (isSelfLoop : Bool) (sourceHandle targetHandle : Option String) :
    EdgeType × Option Relationships :=
  if isSelfLoop then
    (EdgeType.SelfLoop, some ⟨false, true, false, false⟩)
  else if isAgentControlHandle sourceHandle && isAgentControlHandle targetHandle then
    (EdgeType.A2A, some ⟨false, true, false, false⟩)
  else if isAgentControlHandle sourceHandle
      && targetHandle == some externalAgentNodeTargetHandleId then
    (EdgeType.A2AExternal, some ⟨false, false, false, true⟩)
  else
    (EdgeType.Default, none)

/-- `isValidConnection` from `graph.tsx`: connections between two MCP handles
are refused, everything else is allowed. -/
def isValidConnection (sourceHandle targetHandle : Option String) : Bool :=
  if sourceHandle == some mcpNodeHandleId && targetHandle == some mcpNodeHandleId then
    false
  else
    true

/-- One entry of a server agent's `canUse` list, as read by `onSubmit`'s
reconciliation pass: the tool id and the (possibly absent) relationship id. -/
structure CanUseItem where
  toolId : String
  agentToolRelationId : Option String
deriving DecidableEq, Repr

/-- A server agent in the save response: its `canUse` list, `none` when the
field is absent or null (`'canUse' in …` plus the truthiness test; an empty
array is truthy in JavaScript, so `some []` passes the guard). -/
structure AgentResp where
  canUse : Option (List CanUseItem)
deriving DecidableEq, Repr

/-- The data payload of an MCP canvas node as the reconciliation pass reads
it (`MCPNodeData`): agent id, tool id and current relationship id. -/
structure MCPNodeData where
  agentId : Option String
  toolId : Option String
  relationshipId : Option String
deriving DecidableEq, Repr

/-- A canvas node as seen by `onSubmit`'s `setNodes` updater: an MCP node
with its data, or any node of another type (left untouched by the pass). -/
inductive GNode where
  | mcp (id : String) (data : MCPNodeData)
  | other (id : String)
deriving DecidableEq, Repr

/-- The `find` predicate of the reconciliation pass: the item's tool id
matches, its relationship id is truthy, and that id has not already been
consumed (`!processedRelationships.has(...)`). -/
def canUseMatches (toolId : String) (processed : List String) (t : CanUseItem) : Bool :=
  t.toolId == toolId &&
    match t.agentToolRelationId with
    | some rid => rid != "" && !(processed.contains rid)
    | none => false

/-- One step of `onSubmit`'s `setNodes` updater (`graph.tsx`): an MCP node
whose data carries a truthy agent id and tool id and no truthy relationship
id receives the first unconsumed matching relationship id from the server's
`canUse` list for its agent, which is then added to `processedRelationships`.
Every other node is returned unchanged.  A node whose agent id is missing
from the response is modelled as unchanged (in JavaScript the `in` test on
the absent entry would throw; the reconciliation claims concern agents
present in the response). -/
def reconcileNode (agents : String → Option AgentResp) (processed : List String) :
    GNode → GNode × List String
  | GNode.other i => (GNode.other i, processed)
  | GNode.mcp i d =>
    match d.agentId, d.toolId with
    | some aid, some tid =>
      if aid != "" && tid != "" then
        if strTruthy d.relationshipId then (GNode.mcp i d, processed)
        else
          match agents aid with
          | some ag =>
            match ag.canUse with
            | some items =>
              match items.find? (canUseMatches tid processed) with
              | some item =>
                match item.agentToolRelationId with
                | some rid =>
                  if rid != "" then
                    (GNode.mcp i { d with relationshipId := some rid }, rid :: processed)
                  else (GNode.mcp i d, processed)
                | none => (GNode.mcp i d, processed)
              | none => (GNode.mcp i d, processed)
            | none => (GNode.mcp i d, processed)
          | none => (GNode.mcp i d, processed)
      else (GNode.mcp i d, processed)
    | _, _ => (GNode.mcp i d, processed)

/-- The whole reconciliation pass: `currentNodes.map(...)` with the
`processedRelationships` set threaded left to right through the closure. -/
def reconcileNodes (agents : String → Option AgentResp) :
    List GNode → List String → List GNode
  | [], _ => []
  | n :: rest, processed =>
    let r := reconcileNode agents processed n
    r.1 :: reconcileNodes agents rest r.2

/-- Whether a node already carries a truthy relationship id before the pass. -/
def hasRelId : GNode → Bool
  | GNode.mcp _ d => strTruthy d.relationshipId
  | GNode.other _ => false

/-- The relationship id newly assigned to a node by the pass, read off an
(input, output) node pair: `some rid` exactly when the input had no truthy
relationship id and the output has one. -/
def newRelId : GNode → GNode → Option String
  | GNode.mcp _ d, GNode.mcp _ d' =>
    if strTruthy d.relationshipId then none
    else if strTruthy d'.relationshipId then d'.relationshipId
    else none
  | _, _ => none

/-- All relationship ids newly assigned by the pass, in node order. -/
def newIds (inp outp : List GNode) : List String :=
  (List.zipWith newRelId inp outp).reduceOption

/-- The server response offers relationship id `rid` for node `a`: the
response's agent entry for `a`'s agent id has a `canUse` item whose tool id
matches `a`'s tool id and whose relationship id is `rid`. -/
def serverOffers (agents : String → Option AgentResp) (a : GNode) (rid : String) : Prop :=
  match a with
  | GNode.mcp _ d =>
    ∃ aid tid items item,
      d.agentId = some aid ∧ d.toolId = some tid ∧
      (agents aid).bind AgentResp.canUse = some items ∧
      item ∈ items ∧ item.toolId = tid ∧ item.agentToolRelationId = some rid
  | GNode.other _ => False

/-- The concrete response of the claim's scenario: one agent `"agent1"`
whose `canUse` list carries two relationship ids for the same tool. -/
def exampleAgents : String → Option AgentResp := fun aid =>
  if aid = "agent1" then
    some ⟨some [⟨"tool1", some "rel1"⟩, ⟨"tool1", some "rel2"⟩]⟩
  else none

/-- The concrete nodes of the claim's scenario: two newly created MCP nodes
referencing the same agent/tool pair, neither with a relationship id yet. -/
def exampleNodes : List GNode :=
  [GNode.mcp "n1" ⟨some "agent1", some "tool1", none⟩,
   GNode.mcp "n2" ⟨some "agent1", some "tool1", none⟩]

/-- C1: connection inference is a pure function of
(sourceHandle, targetHandle, isSelfLoop): the edge type and relationship
payload `onConnectWrapped` builds agree, on every connection, with the spec's
case analysis (self-loop → SelfLoop with transferSourceToTarget only;
agent-control to agent-control → A2A with the same flags; agent-control to
external-agent handle → A2AExternal with delegateSourceToTarget only;
otherwise the default edge with no relationships payload). -/
theorem connection_inference_matches_spec (params : Connection) :
    ((onConnectEdge params).type, (onConnectEdge params).relationships) =
      specConnectionInference (params.source == params.target)
        params.sourceHandle params.targetHandle := by
  rcases params with ⟨s, t, sh, th⟩
  cases hst : (s == t) <;>
    cases h1 : (sh == some agentNodeSourceHandleId) <;>
    cases h2 : (sh == some agentNodeTargetHandleId) <;>
    cases h3 : (th == some agentNodeTargetHandleId) <;>
    cases h4 : (th == some agentNodeSourceHandleId) <;>
    cases h5 : (th == some externalAgentNodeTargetHandleId) <;>
    simp [onConnectEdge, specConnectionInference, isAgentControlHandle,
      hst, h1, h2, h3, h4, h5]

/-- C2: edge-id derivation is symmetric: for distinct endpoints the id is
independent of direction and equals `edge-` plus the two ids in sorted order
joined by `-`; a self-loop's id is `edge-self-<nodeId>` and depends only on
the single node id. -/
theorem getEdgeId_symm_sorted (a b : String) (h : a ≠ b) :
    getEdgeId a b = getEdgeId b a ∧
    getEdgeId a b = "edge-" ++ min a b ++ "-" ++ max a b ∧
    (∀ p : Connection, p.source = p.target →
      (onConnectEdge p).id = selfLoopEdgeId p.source) := by
  refine ⟨?_, ?_, ?_⟩
  · rcases le_total a b with hab | hba
    · have hba' : ¬ b ≤ a := fun hba => h (le_antisymm hab hba)
      simp [getEdgeId, hab, hba']
    · have hab' : ¬ a ≤ b := fun hab => h (le_antisymm hab hba)
      simp [getEdgeId, hba, hab']
  · rcases le_total a b with hab | hba
    · simp [getEdgeId, hab, min_eq_left hab, max_eq_right hab]
    · have hab' : ¬ a ≤ b := fun hab => h (le_antisymm hab hba)
      simp [getEdgeId, hab', min_eq_right hba, max_eq_left hba]
  · intro p hp
    have hb : (p.source == p.target) = true := by
      simpa using hp
    rcases p with ⟨s, t, sh, th⟩
    simp only at hb
    simp [onConnectEdge, hb]

/-- Witness for C2 at the concrete endpoints `"a"` and `"b"`. -/
theorem getEdgeId_symm_sorted_witness :
    getEdgeId "a" "b" = getEdgeId "b" "a" ∧
    getEdgeId "a" "b" = "edge-" ++ min "a" "b" ++ "-" ++ max "a" "b" ∧
    (∀ p : Connection, p.source = p.target →
      (onConnectEdge p).id = selfLoopEdgeId p.source) :=
  getEdgeId_symm_sorted "a" "b" (by decide)

/-- C4: the connection validity predicate rejects a pair of handles exactly
when both are the MCP-node handle. -/
theorem isValidConnection_rejects_only_mcp_to_mcp (sh th : Option String) :
    isValidConnection sh th = false ↔
      (sh = some mcpNodeHandleId ∧ th = some mcpNodeHandleId) := by
  cases h1 : (sh == some mcpNodeHandleId) <;>
    cases h2 : (th == some mcpNodeHandleId) <;>
    simp_all [isValidConnection]

theorem newRelId_self (n : GNode) : newRelId n n = none := by
  cases n with
  | mcp i d => cases h : strTruthy d.relationshipId <;> simp [newRelId, h]
  | other i => rfl

theorem reconcileNode_cases (agents : String → Option AgentResp) (processed : List String)
    (n : GNode) :
    reconcileNode agents processed n = (n, processed) ∨
    ∃ i d rid,
      n = GNode.mcp i d ∧ strTruthy d.relationshipId = false ∧
      reconcileNode agents processed n =
        (GNode.mcp i { d with relationshipId := some rid }, rid :: processed) ∧
      rid ≠ "" ∧ rid ∉ processed ∧ serverOffers agents n rid := by
  cases n with
  | other i => left; rfl
  | mcp i d =>
    rcases d with ⟨aid?, tid?, rel?⟩
    cases aid? with
    | none => left; rfl
    | some aid =>
      cases tid? with
      | none => left; rfl
      | some tid =>
        by_cases htr : (aid != "" && tid != "") = true
        · by_cases hrel : strTruthy rel? = true
          · left; simp [reconcileNode, htr, hrel]
          · replace hrel : strTruthy rel? = false := by
              cases h : strTruthy rel? <;> simp_all
            cases hag : agents aid with
            | none => left; simp [reconcileNode, htr, hrel, hag]
            | some ag =>
              cases hcu : ag.canUse with
              | none => left; simp [reconcileNode, htr, hrel, hag, hcu]
              | some items =>
                cases hfind : items.find? (canUseMatches tid processed) with
                | none => left; simp [reconcileNode, htr, hrel, hag, hcu, hfind]
                | some item =>
                  have hp : canUseMatches tid processed item = true :=
                    List.find?_some hfind
                  have hmem : item ∈ items := List.mem_of_find?_eq_some hfind
                  cases hrid : item.agentToolRelationId with
                  | none => simp [canUseMatches, hrid] at hp
                  | some rid =>
                    have hto : item.toolId = tid ∧ rid ≠ "" ∧ rid ∉ processed := by
                      simp [canUseMatches, hrid] at hp
                      exact ⟨hp.1, hp.2.1, hp.2.2⟩
                    right
                    refine ⟨i, ⟨some aid, some tid, rel?⟩, rid, rfl, hrel, ?_, hto.2.1,
                      hto.2.2, ?_⟩
                    · simp [reconcileNode, htr, hrel, hag, hcu, hfind, hrid, hto.2.1]
                    · exact ⟨aid, tid, items, item, rfl, rfl, by simp [hag, hcu],
                        hmem, hto.1, hrid⟩
        · left; simp [reconcileNode, htr]

theorem reconcileNodes_invariant (agents : String → Option AgentResp) (ns : List GNode) :
    ∀ processed : List String,
      List.Forall₂ (fun a b => (hasRelId a = true → b = a) ∧
          (∀ rid, newRelId a b = some rid → serverOffers agents a rid))
        ns (reconcileNodes agents ns processed) ∧
      (∀ rid ∈ newIds ns (reconcileNodes agents ns processed), rid ∉ processed) ∧
      (newIds ns (reconcileNodes agents ns processed)).Nodup := by
  induction ns with
  | nil =>
    intro processed
    refine ⟨List.Forall₂.nil, ?_, ?_⟩ <;> simp [reconcileNodes, newIds]
  | cons n rest ih =>
    intro processed
    rcases reconcileNode_cases agents processed n with hsame | ⟨i, d, rid, hn, hrel, heq, hne, hnotin, hoffer⟩
    · have hout : reconcileNodes agents (n :: rest) processed =
          n :: reconcileNodes agents rest processed := by
        simp [reconcileNodes, hsame]
      have hids : newIds (n :: rest) (reconcileNodes agents (n :: rest) processed) =
          newIds rest (reconcileNodes agents rest processed) := by
        rw [hout]
        simp [newIds, newRelId_self]
      rcases ih processed with ⟨hf, hfresh, hnodup⟩
      refine ⟨?_, ?_, ?_⟩
      · rw [hout]
        exact List.Forall₂.cons
          ⟨fun _ => rfl, fun rid h => by rw [newRelId_self] at h; cases h⟩ hf
      · rw [hids]; exact hfresh
      · rw [hids]; exact hnodup
    · subst hn
      have hout : reconcileNodes agents (GNode.mcp i d :: rest) processed =
          GNode.mcp i { d with relationshipId := some rid } ::
            reconcileNodes agents rest (rid :: processed) := by
        simp [reconcileNodes, heq]
      have hnew : newRelId (GNode.mcp i d)
          (GNode.mcp i { d with relationshipId := some rid }) = some rid := by
        have h2 : strTruthy (some rid) = true := by simp [strTruthy, hne]
        simp [newRelId, hrel, h2]
      have hids : newIds (GNode.mcp i d :: rest)
            (reconcileNodes agents (GNode.mcp i d :: rest) processed) =
          rid :: newIds rest (reconcileNodes agents rest (rid :: processed)) := by
        rw [hout]
        simp [newIds, hnew]
      rcases ih (rid :: processed) with ⟨hf, hfresh, hnodup⟩
      refine ⟨?_, ?_, ?_⟩
      · rw [hout]
        refine List.Forall₂.cons ⟨?_, ?_⟩ hf
        · intro hcontra
          simp [hasRelId, hrel] at hcontra
        · intro rid' h
          rw [hnew] at h
          cases h
          exact hoffer
      · rw [hids]
        intro x hx
        rw [List.mem_cons] at hx
        rcases hx with rfl | hx
        · exact hnotin
        · have := hfresh x hx
          intro hxp
          exact this (List.mem_cons_of_mem _ hxp)
      · rw [hids]
        refine List.nodup_cons.mpr ⟨?_, hnodup⟩
        intro hmem
        have := hfresh rid hmem
        exact this (List.mem_cons_self _ _)

/-- C3: the reconciliation pass after a successful save keeps every node
that already has a relationship id unchanged, only assigns ids offered by the
server for the node's agent/tool pair, and never assigns the same
server-returned id to two nodes (the newly assigned ids are pairwise
distinct); in particular, in the concrete scenario of two new MCP nodes
referencing the same agent/tool pair with two matching server ids, the nodes
receive the two distinct ids. -/
theorem reconcile_relationship_ids_once (agents : String → Option AgentResp)
    (ns : List GNode) :
    List.Forall₂ (fun a b => (hasRelId a = true → b = a) ∧
        (∀ rid, newRelId a b = some rid → serverOffers agents a rid))
      ns (reconcileNodes agents ns []) ∧
    (newIds ns (reconcileNodes agents ns [])).Nodup ∧
    reconcileNodes exampleAgents exampleNodes [] =
      [GNode.mcp "n1" ⟨some "agent1", some "tool1", some "rel1"⟩,
       GNode.mcp "n2" ⟨some "agent1", some "tool1", some "rel2"⟩] := by
  refine ⟨(reconcileNodes_invariant agents ns []).1,
    (reconcileNodes_invariant agents ns []).2.2, ?_⟩
  decide

/-- The observable effects of `onSubmit`'s failure branch (`graph.tsx`), over
an abstract error-summary type `S`: store the parsed summary, show an error
notification, or log to the console. -/
inductive FailureEffect (S : Type) where
  | setErrors (summary : S)
  | toastError (message : String)
  | consoleError
deriving DecidableEq, Repr

/-- The failure branch of `onSubmit`: inside a `try`, the validation error is
parsed into a summary (`parseGraphValidationErrors`, an imported helper that
may throw, modelled as `Except`), the summary is stored, and an error
notification with `getErrorSummaryMessage`'s headline (or the fallback text
when it is absent or empty) is shown; any throw inside the `try` is caught,
logged, and downgraded to the generic failure notification.  The branch is a
total function into an effect list, so no exception leaves it. -/
def onSubmitFailureBranch {P S : Type} (parsed : Except P S)
    (getMsg : S → Except P (Option String)) : List (FailureEffect S) :=
  match parsed with
  | Except.error _ =>
    [FailureEffect.consoleError, FailureEffect.toastError "Failed to save graph"]
  | Except.ok s =>
    match getMsg s with
    | Except.error _ =>
      [FailureEffect.setErrors s, FailureEffect.consoleError,
       FailureEffect.toastError "Failed to save graph"]
    | Except.ok m =>
      [FailureEffect.setErrors s,
       FailureEffect.toastError
         (match m with
          | some msg =>
            if msg != "" then msg else "Failed to save graph - validation errors found"
          | none => "Failed to save graph - validation errors found")]

/-- C5: on a failed save, a successfully parsed validation error is stored
for overlay rendering and announced with its human-readable headline; a parse
throw instead logs the error and shows the generic failure notification; in
both cases the branch returns an effect list (so nothing propagates) and some
error notification is always shown. -/
theorem onSubmit_failure_branch_effects {P S : Type} (parsed : Except P S)
    (getMsg : S → Except P (Option String)) :
    (∀ s m, parsed = Except.ok s → getMsg s = Except.ok m →
      onSubmitFailureBranch parsed getMsg =
        [FailureEffect.setErrors s,
         FailureEffect.toastError
           (match m with
            | some msg =>
              if msg != "" then msg else "Failed to save graph - validation errors found"
            | none => "Failed to save graph - validation errors found")]) ∧
    (∀ e, parsed = Except.error e →
      onSubmitFailureBranch parsed getMsg =
        [FailureEffect.consoleError, FailureEffect.toastError "Failed to save graph"]) ∧
    (∃ msg, FailureEffect.toastError msg ∈ onSubmitFailureBranch parsed getMsg) := by
  refine ⟨?_, ?_, ?_⟩
  · intro s m hp hg
    subst hp
    simp [onSubmitFailureBranch, hg]
  · intro e hp
    subst hp
    rfl
  · cases parsed with
    | error e => exact ⟨"Failed to save graph", by simp [onSubmitFailureBranch]⟩
    | ok s =>
      cases hg : getMsg s with
      | error e =>
        exact ⟨"Failed to save graph", by simp [onSubmitFailureBranch, hg]⟩
      | ok m =>
        cases m with
        | none =>
          exact ⟨"Failed to save graph - validation errors found",
            by simp [onSubmitFailureBranch, hg]⟩
        | some msg =>
          by_cases hmsg : msg = ""
          · exact ⟨"Failed to save graph - validation errors found",
              by simp [onSubmitFailureBranch, hg, hmsg]⟩
          · exact ⟨msg, by simp [onSubmitFailureBranch, hg, hmsg]⟩

/-- The observable effects of `onSubmit` after `saveGraph` returns, over an
abstract error-summary type `S`. -/
inductive SubmitEffect (S : Type) where
  | clearErrors
  | toastSuccess (message : String)
  | markSaved
  | setNodesUpdated (nodes : List GNode)
  | setMetadataId (id : String)
  | routerPush (graphId : String)
  | setErrors (summary : S)
  | toastError (message : String)
  | consoleError
deriving DecidableEq, Repr

/-- The failure branch's effects, viewed among the full set of `onSubmit`
effects. -/
def liftFailureEffect {S : Type} : FailureEffect S → SubmitEffect S
  | FailureEffect.setErrors s => SubmitEffect.setErrors s
  | FailureEffect.toastError m => SubmitEffect.toastError m
  | FailureEffect.consoleError => SubmitEffect.consoleError

/-- The payload of a successful save response as `onSubmit` reads it: the
agents map driving relationship-id reconciliation, and the server-assigned
graph id. -/
structure SaveData where
  agents : String → Option AgentResp
  id : Option String

/-- The result of `saveGraph`: `{success: true, data}` or
`{success: false, error}`. -/
inductive SaveResult (E : Type) where
  | success (data : Option SaveData)
  | failure (error : E)

/-- `onSubmit` after the `saveGraph` call returns (`graph.tsx`): on success,
clear errors, notify success, mark saved, reconcile relationship ids when a
data payload is present, and on a first save with a server-assigned id record
the id and navigate; on failure, run the failure branch. -/
def onSubmitAfterSave {E P S : Type} (graphId : Option String)
    (currentNodes : List GNode) (res : SaveResult E)
    (parseErrors : E → Except P S) (getMsg : S → Except P (Option String)) :
    List (SubmitEffect S) :=
  match res with
  | SaveResult.success dat =>
    [SubmitEffect.clearErrors, SubmitEffect.toastSuccess "Graph saved",
     SubmitEffect.markSaved]
    ++ (match dat with
        | some d =>
          [SubmitEffect.setNodesUpdated (reconcileNodes d.agents currentNodes [])]
        | none => [])
    ++ (match dat with
        | some d =>
          if !strTruthy graphId && strTruthy d.id then
            [SubmitEffect.setMetadataId (d.id.getD ""),
             SubmitEffect.routerPush (d.id.getD "")]
          else []
        | none => [])
  | SaveResult.failure e =>
    (onSubmitFailureBranch (parseErrors e) getMsg).map liftFailureEffect

/-- C6: `markSaved` and `clearErrors` occur among `onSubmit`'s post-save
effects exactly when the save result is a success; on every failed save
neither occurs, so the graph stays marked unsaved and stored errors are only
ever replaced by the newly parsed summary. -/
theorem markSaved_clearErrors_iff_success {E P S : Type} (graphId : Option String)
    (currentNodes : List GNode) (res : SaveResult E)
    (parseErrors : E → Except P S) (getMsg : S → Except P (Option String)) :
    ((SubmitEffect.markSaved ∈
        onSubmitAfterSave graphId currentNodes res parseErrors getMsg) ↔
      (∃ d, res = SaveResult.success d)) ∧
    ((SubmitEffect.clearErrors ∈
        onSubmitAfterSave graphId currentNodes res parseErrors getMsg) ↔
      (∃ d, res = SaveResult.success d)) := by
  cases res with
  | success dat =>
    constructor <;>
      simp [onSubmitAfterSave]
  | failure e =>
    have hnone : ∀ x ∈ (onSubmitFailureBranch (parseErrors e) getMsg).map liftFailureEffect,
        x ≠ SubmitEffect.markSaved ∧ x ≠ SubmitEffect.clearErrors := by
      intro x hx
      rcases List.mem_map.mp hx with ⟨f, _, rfl⟩
      cases f <;> simp [liftFailureEffect]
    constructor
    · constructor
      · intro hmem
        exact absurd rfl (hnone _ hmem).1
      · rintro ⟨d, hd⟩
        cases hd
    · constructor
      · intro hmem
        exact absurd rfl (hnone _ hmem).2
      · rintro ⟨d, hd⟩
        cases hd

/-- The `{code, message}` payload of a typed `ApiError`. -/
structure ErrorInfo where
  code : String
  message : String
deriving DecidableEq, Repr

/-- The fallback payload used when a non-2xx body yields no error object:
`{code: 'unknown', message: 'Unknown error occurred'}`. -/
def fallbackErrorInfo : ErrorInfo :=
  { code := "unknown", message := "Unknown error occurred" }

/-- A parsed non-2xx response body: its `error` field, `none` when the field
is absent or falsy. -/
structure ErrorBody where
  error : Option ErrorInfo
deriving DecidableEq, Repr

/-- An HTTP response as `makeApiRequestInternal` consumes it: `ok`, `status`,
the error body's JSON parse (`none` when not parseable), whether the
content-type indicates JSON, and the success body's parse (`Except.error`
when `JSON.parse` throws, carrying the thrown message; `Except.ok none` for
an empty body). -/
structure HttpResponse (T : Type) where
  ok : Bool
  status : Nat
  errorBody : Option ErrorBody
  contentTypeJson : Bool
  body : Except String (Option T)

/-- What the `fetch` inside `makeApiRequestInternal` produced: a response, or
a thrown network error (`some message` when the thrown value is an `Error`). -/
inductive FetchResult (T : Type) where
  | response (resp : HttpResponse T)
  | networkError (message : Option String)

/-- The helper's outcome: a returned value, or a thrown `ApiError` carrying
`{code, message}` plus the HTTP status.  No other outcome exists, so no other
kind of exception escapes the helper. -/
inductive ApiOutcome (T : Type) where
  | ok (value : Option T)
  | err (info : ErrorInfo) (status : Nat)
deriving DecidableEq

/-- The error payload extracted from a non-2xx response:
`errorData.error || fallback`, where an unparseable body already fell back to
an object whose `error` field is the fallback. -/
def errorInfoOf {T : Type} (resp : HttpResponse T) : ErrorInfo :=
  match resp.errorBody with
  | none => fallbackErrorInfo
  | some b => b.error.getD fallbackErrorInfo

/-- `makeApiRequestInternal` from the API configuration module: non-2xx →
`ApiError` with the body's error payload (or fallback) and the response
status; JSON content → parse, re-thrown parse failures and network failures
becoming `ApiError` with code `internal_server_error` and status 500;
non-JSON or empty content → `undefined`. -/
def makeApiRequestInternal {T : Type} (r : FetchResult T) : ApiOutcome T :=
  match r with
  | FetchResult.networkError msg =>
    ApiOutcome.err
      { code := "internal_server_error", message := msg.getD "Network error occurred" }
      500
  | FetchResult.response resp =>
    if resp.ok = false then
      ApiOutcome.err (errorInfoOf resp) resp.status
    else if resp.contentTypeJson then
      match resp.body with
      | Except.error msg =>
        ApiOutcome.err { code := "internal_server_error", message := msg } 500
      | Except.ok v => ApiOutcome.ok v
    else
      ApiOutcome.ok none

/-- `makeManagementApiRequest`: delegates to the shared helper (its base URL
and headers are modelled separately). -/
def makeManagementApiRequest {T : Type} (r : FetchResult T) : ApiOutcome T :=
  makeApiRequestInternal r

/-- `makeAgentsRunApiRequest`: delegates to the shared helper. -/
def makeAgentsRunApiRequest {T : Type} (r : FetchResult T) : ApiOutcome T :=
  makeApiRequestInternal r

/-- C7: through either request helper, a non-2xx response throws a typed
`ApiError` carrying the body's `{code, message}` — the fallback
`{unknown, Unknown error occurred}` when the body is not parseable JSON —
together with the HTTP status, and a network failure, or any other
non-`ApiError` failure such as `JSON.parse` throwing on a 2xx JSON body,
throws an `ApiError` with code `internal_server_error` and status 500; the
helper's outcome type admits nothing else, so no other exception escapes. -/
theorem api_request_error_taxonomy {T : Type} (resp : HttpResponse T)
    (msg : Option String) :
    (resp.ok = false →
      makeManagementApiRequest (FetchResult.response resp) =
        ApiOutcome.err (errorInfoOf resp) resp.status ∧
      makeAgentsRunApiRequest (FetchResult.response resp) =
        ApiOutcome.err (errorInfoOf resp) resp.status) ∧
    (resp.errorBody = none → errorInfoOf resp = fallbackErrorInfo) ∧
    (∀ info, resp.errorBody = some { error := some info } →
      errorInfoOf resp = info) ∧
    (makeManagementApiRequest (FetchResult.networkError (T := T) msg) =
      ApiOutcome.err
        { code := "internal_server_error", message := msg.getD "Network error occurred" }
        500 ∧
     makeAgentsRunApiRequest (FetchResult.networkError (T := T) msg) =
      ApiOutcome.err
        { code := "internal_server_error", message := msg.getD "Network error occurred" }
        500) ∧
    (∀ m, resp.ok = true → resp.contentTypeJson = true →
      resp.body = Except.error m →
      makeManagementApiRequest (FetchResult.response resp) =
        ApiOutcome.err { code := "internal_server_error", message := m } 500 ∧
      makeAgentsRunApiRequest (FetchResult.response resp) =
        ApiOutcome.err { code := "internal_server_error", message := m } 500) := by
  refine ⟨?_, ?_, ?_, ⟨rfl, rfl⟩, ?_⟩
  · intro hok
    constructor <;>
      simp [makeManagementApiRequest, makeAgentsRunApiRequest,
        makeApiRequestInternal, hok]
  · intro h
    simp [errorInfoOf, h]
  · intro info h
    simp [errorInfoOf, h]
  · intro m hok hct hbody
    constructor <;>
      simp [makeManagementApiRequest, makeAgentsRunApiRequest,
        makeApiRequestInternal, hok, hct, hbody]

/-- The bypass-secret environment configuration consulted by the request
helpers. -/
structure ApiEnv where
  manageBypassSecret : Option String
  runBypassSecret : Option String
deriving DecidableEq, Repr

/-- The Authorization header `makeApiRequestInternal` builds into its default
headers: present exactly when the manage bypass secret environment variable
is truthy, carrying `Bearer <secret>`.  The run bypass secret does not occur
anywhere in the helper's source. -/
def internalAuthHeader (env : ApiEnv) : Option String :=
  match env.manageBypassSecret with
  | some s => if s != "" then some ("Bearer " ++ s) else none
  | none => none

/-- The Authorization header a `makeManagementApiRequest` call carries:
the shared helper's header. -/
def managementRequestAuthHeader (env : ApiEnv) : Option String :=
  internalAuthHeader env

/-- The Authorization header a `makeAgentsRunApiRequest` call carries: also
the shared helper's header, which reads the manage bypass secret. -/
def agentsRunRequestAuthHeader (env : ApiEnv) : Option String :=
  internalAuthHeader env

/-- C8 counterexample: with only the run bypass secret configured, a run-API
request carries no Authorization header, refuting the claim that
`makeAgentsRunApiRequest` attaches a bearer token when the run bypass secret
is configured. -/
theorem run_request_ignores_run_secret_cex :
    (ApiEnv.mk none (some "run-secret")).runBypassSecret = some "run-secret" ∧
    agentsRunRequestAuthHeader (ApiEnv.mk none (some "run-secret")) = none := by
  constructor <;> rfl

/-- C8 (amended): both request helpers attach the bearer Authorization header
exactly when the manage bypass secret is configured (set and non-empty),
always carrying the manage secret; the run bypass secret never influences the
header of either helper. -/
theorem auth_header_uses_manage_secret_only (env : ApiEnv) (r : Option String) :
    agentsRunRequestAuthHeader env = managementRequestAuthHeader env ∧
    managementRequestAuthHeader { env with runBypassSecret := r } =
      managementRequestAuthHeader env ∧
    agentsRunRequestAuthHeader { env with runBypassSecret := r } =
      agentsRunRequestAuthHeader env ∧
    (∀ s, env.manageBypassSecret = some s → s ≠ "" →
      managementRequestAuthHeader env = some ("Bearer " ++ s) ∧
      agentsRunRequestAuthHeader env = some ("Bearer " ++ s)) ∧
    (strTruthy env.manageBypassSecret = false →
      managementRequestAuthHeader env = none ∧
      agentsRunRequestAuthHeader env = none) := by
  refine ⟨rfl, rfl, rfl, ?_, ?_⟩
  · intro s hs hne
    constructor <;>
      simp [managementRequestAuthHeader, agentsRunRequestAuthHeader,
        internalAuthHeader, hs, hne]
  · intro hf
    cases hs : env.manageBypassSecret with
    | none =>
      constructor <;>
        simp [managementRequestAuthHeader, agentsRunRequestAuthHeader,
          internalAuthHeader, hs]
    | some s =>
      rw [hs] at hf
      have hse : s = "" := by
        by_contra hne
        simp [strTruthy, hne] at hf
      subst hse
      constructor <;>
        simp [managementRequestAuthHeader, agentsRunRequestAuthHeader,
          internalAuthHeader, hs]

/-- The module-level state of the lazy URL getters: the cached URL and the
warn-once flag. -/
structure UrlState where
  cachedUrl : Option String
  hasWarned : Bool
deriving DecidableEq, Repr

/-- The state before any call: nothing cached, no warning emitted. -/
def initialUrlState : UrlState := { cachedUrl := none, hasWarned := false }

/-- One call to a lazy URL getter (`getManageApiUrl` / `getRunApiUrl`):
returns the cached URL when present; otherwise resolves the environment
variable with the default as fallback, warns when the variable is not truthy
and no warning was emitted before, and caches the result.  Result:
(returned URL, whether this call warned, new state). -/
def getApiUrlStep (envVar : Option String) (defaultUrl : String) (s : UrlState) :
    String × Bool × UrlState :=
  match s.cachedUrl with
  | some u => (u, false, s)
  | none =>
    let url := match envVar with
      | some v => if v != "" then v else defaultUrl
      | none => defaultUrl
    let warns := !strTruthy envVar && !s.hasWarned
    (url, warns, { cachedUrl := some url, hasWarned := s.hasWarned || warns })

/-- `getManageApiUrl`, over the manage-API environment variable and the
default manage URL (the default constant lives in a runtime-config module and
is a parameter here). -/
def getManageApiUrl (manageApiUrlEnv : Option String) (defaultUrl : String)
    (s : UrlState) : String × Bool × UrlState :=
  getApiUrlStep manageApiUrlEnv defaultUrl s

/-- `getRunApiUrl`, over the run-API environment variable and the default
run URL; its body repeats `getManageApiUrl`'s logic over its own state. -/
def getRunApiUrl (runApiUrlEnv : Option String) (defaultUrl : String)
    (s : UrlState) : String × Bool × UrlState :=
  getApiUrlStep runApiUrlEnv defaultUrl s

/-- A sequence of `n` calls to a getter, threading its module state and
collecting each call's returned URL and whether that call warned. -/
def runUrlCalls (step : UrlState → String × Bool × UrlState) :
    Nat → UrlState → List (String × Bool)
  | 0, _ => []
  | n + 1, s =>
    let r := step s
    (r.1, r.2.1) :: runUrlCalls step n r.2.2

theorem runUrlCalls_cached (envVar : Option String) (defaultUrl u : String)
    (w : Bool) (n : Nat) :
    runUrlCalls (getApiUrlStep envVar defaultUrl) n
        { cachedUrl := some u, hasWarned := w } =
      List.replicate n (u, false) := by
  induction n with
  | zero => rfl
  | succ n ih =>
    rw [List.replicate_succ]
    simpa [runUrlCalls, getApiUrlStep] using ih

/-- C9: with the environment variable unset, any sequence of calls to
`getManageApiUrl` (respectively `getRunApiUrl`) warns exactly once — on the
first call — and every call returns the default base URL; with the variable
set (non-empty), no call ever warns and every call returns the configured
URL. -/
theorem api_url_warning_once (defaultUrl : String) (n : Nat) (u : String) :
    runUrlCalls (getManageApiUrl none defaultUrl) (n + 1) initialUrlState =
      (defaultUrl, true) :: List.replicate n (defaultUrl, false) ∧
    runUrlCalls (getRunApiUrl none defaultUrl) (n + 1) initialUrlState =
      (defaultUrl, true) :: List.replicate n (defaultUrl, false) ∧
    (u ≠ "" →
      runUrlCalls (getManageApiUrl (some u) defaultUrl) (n + 1) initialUrlState =
        List.replicate (n + 1) (u, false) ∧
      runUrlCalls (getRunApiUrl (some u) defaultUrl) (n + 1) initialUrlState =
        List.replicate (n + 1) (u, false)) := by
  have hunset : runUrlCalls (getApiUrlStep none defaultUrl) (n + 1) initialUrlState =
      (defaultUrl, true) :: List.replicate n (defaultUrl, false) := by
    rw [show n + 1 = n + 1 from rfl]
    simp only [runUrlCalls, getApiUrlStep, initialUrlState]
    simp [strTruthy, runUrlCalls_cached]
  have hset : u ≠ "" →
      runUrlCalls (getApiUrlStep (some u) defaultUrl) (n + 1) initialUrlState =
        List.replicate (n + 1) (u, false) := by
    intro hne
    rw [List.replicate_succ]
    simp only [runUrlCalls, getApiUrlStep, initialUrlState]
    simp [strTruthy, hne, runUrlCalls_cached]
  exact ⟨hunset, hunset, fun hne => ⟨hset hne, hset hne⟩⟩

/-- The node types the canvas state distinguishes. -/
inductive NodeType where
  | Agent
  | ExternalAgent
  | MCP
deriving DecidableEq, Repr

/-- A canvas node's data payload, with the fields read by `initialNodes` and
`enrichNodes` (`toolId` is `none` when the key is absent from the payload,
as for agent nodes). -/
structure NodeData where
  name : String
  isDefault : Bool
  toolId : Option String := none
  imageUrl : Option String := none
  provider : Option String := none
deriving DecidableEq, Repr

/-- A canvas node as `Flow` builds it: id, type, position, data payload and
deletable flag. -/
structure CanvasNode where
  id : String
  type : NodeType
  x : Int
  y : Int
  data : NodeData
  deletable : Bool
deriving DecidableEq, Repr

/-- An MCP tool from the tool lookup, with the fields `enrichNodes` reads. -/
structure MCPTool where
  name : String
  imageUrl : Option String
deriving DecidableEq, Repr

/-- `initialNodes` from `Flow` (`graph.tsx`): one Agent node at (0, 0) with
empty name, marked as the default agent, not deletable; the fresh `nanoid()`
is a parameter. -/
def initialNodes (freshId : String) : List CanvasNode :=
  [{ id := freshId, type := NodeType.Agent, x := 0, y := 0,
     data := { name := "", isDefault := true }, deletable := false }]

/-- Modelled from the spec: `initialEdges` is exported by the edge-types
configuration module, which is not among the source files; the spec describes
the empty default graph as a "single default agent node, no edges". -/
def initialEdges : List GraphEdge := []

/-- `enrichNodes` from `Flow`: MCP nodes whose data carries a tool id found
in the tool lookup get the tool's name, image URL and provider merged into
their data; every other node passes through.  `getToolTypeAndName` lives in
an mcp-utils module outside the sources, so the provider it derives is a
parameter. -/
def enrichNodes (toolLookup : String → Option MCPTool)
    (providerOf : MCPTool → Option String) (ns : List CanvasNode) :
    List CanvasNode :=
  ns.map fun node =>
    match node.type, node.data.toolId with
    | NodeType.MCP, some tid =>
      match toolLookup tid with
      | some tool =>
        { node with
          data := { node.data with
                    name := tool.name
                    imageUrl := tool.imageUrl
                    provider := providerOf tool } }
      | none => node
    | _, _ => node

/-- The canvas state `Flow` computes when no `graph` prop is given: the
`graph ? deserializeGraphData(graph) : {nodes: initialNodes,
edges: initialEdges}` memo's else-branch, with the nodes enriched. -/
def flowInitialCanvas (toolLookup : String → Option MCPTool)
    (providerOf : MCPTool → Option String) (freshId : String) :
    List CanvasNode × List GraphEdge :=
  (enrichNodes toolLookup providerOf (initialNodes freshId), initialEdges)

/-- C10: with no graph given, the initial canvas state holds exactly one node
and zero edges, and that node is an Agent node at position (0, 0) whose data
marks it as the default agent and whose deletable flag is false. -/
theorem default_canvas_is_single_agent (toolLookup : String → Option MCPTool)
    (providerOf : MCPTool → Option String) (freshId : String) :
    (flowInitialCanvas toolLookup providerOf freshId).1 =
      [{ id := freshId, type := NodeType.Agent, x := 0, y := 0,
         data := { name := "", isDefault := true, toolId := none,
                   imageUrl := none, provider := none },
         deletable := false }] ∧
    (flowInitialCanvas toolLookup providerOf freshId).2 = [] ∧
    (flowInitialCanvas toolLookup providerOf freshId).1.length = 1 ∧
    ∀ node ∈ (flowInitialCanvas toolLookup providerOf freshId).1,
      node.type = NodeType.Agent ∧ node.x = 0 ∧ node.y = 0 ∧
        node.data.isDefault = true ∧ node.deletable = false := by
  refine ⟨rfl, rfl, rfl, ?_⟩
  intro node h
  simp [flowInitialCanvas, enrichNodes, initialNodes] at h
  subst h
  exact ⟨rfl, rfl, rfl, rfl, rfl⟩
